import Mathlib

/- Verification development for the go-micro tunnel package
   (src/tunnel/default.go, src/tunnel/link.go and the package interface file).
   The Go code is shallowly embedded: goroutine interleavings collapse to
   explicit state passing, Go maps become association lists, float64
   arithmetic becomes exact rational arithmetic, int64 nanoseconds become
   Int, and channel-based signalling becomes Bool flags. -/

namespace Tunnel

/-- Delivery mode of a session (package interface file: Unicast | Multicast |
    Broadcast, a uint8 iota, so Unicast = 0, Multicast = 1, Broadcast = 2). -/
inductive Mode where
  | unicast
  | multicast
  | broadcast
deriving DecidableEq

/-- Numeric value of a Mode constant (the Go iota), used for the
    `msg.mode > Unicast` comparison in process(). -/
def Mode.val : Mode → Nat
  | .unicast => 0
  | .multicast => 1
  | .broadcast => 2

/-- The session record stored in the sessions map of the tunnel.  Fields mirror
    the `session` struct fields assigned by newSession, Dial and Listen in
    src/tunnel/default.go; Go channels and the embedded send channel are
    signalling machinery and are omitted from the pure value. -/
structure SessionV where
  tunnel : String
  channel : String
  session : String
  token : String
  mode : Mode := .unicast
  link : String := ""
  remote : String := ""
  localAddr : String := ""
  outbound : Bool := false
  discovered : Bool := false
deriving DecidableEq

/-- The per-link data the tunnel reads under the lock of the link in process() and
    Dial() (src/tunnel/default.go): id, connected, loopback and the
    channel-membership map.  Go keeps `channels` as a map channel → last-seen
    time.Time where a channel counts as mapped iff its timestamp is non-zero
    (setChannel always stores time.Now(), getChannel returns the zero time
    for absent keys); we model the map by the list of mapped channel names. -/
structure LinkView where
  id : String
  connected : Bool
  loopback : Bool
  channels : List String
deriving DecidableEq

/-- The tunnel state (the `tun` struct of src/tunnel/default.go): identity,
    connected flag, closed signal, the sessions map keyed by the string
    channel+session, and the outbound links.  listenerCloseErr is the value
    t.listener.Close() would return. -/
structure TunState where
  id : String := ""
  token : String := ""
  connected : Bool := false
  closedFlag : Bool := false
  sessions : List (String × SessionV) := []
  links : List LinkView := []
  listenerCloseErr : Option String := none
deriving DecidableEq

/-- Go map lookup `t.sessions[k]`: first entry of the association list whose
    key is k. -/
def findSession : List (String × SessionV) → String → Option SessionV
  | [], _ => none
  | e :: rest, k => if e.1 = k then some e.2 else findSession rest k

/-- Go `delete(t.sessions, k)`: drop the entry with key k.  A Go map holds at
    most one entry per key; removing every matching entry coincides with that
    on well-formed states. -/
def removeKey : List (String × SessionV) → String → List (String × SessionV)
  | [], _ => []
  | e :: rest, k => if e.1 = k then removeKey rest k else e :: removeKey rest k

/-- Number of sessions-map entries carrying key k. -/
def countKey : List (String × SessionV) → String → Nat
  | [], _ => 0
  | e :: rest, k => (if e.1 = k then 1 else 0) + countKey rest k

/-- getSession (default.go:85): lookup under the key channel+session. -/
def getSession (t : TunState) (channel session : String) : Option SessionV :=
  findSession t.sessions (channel ++ session)

/-- delSession (default.go:94): delete the entry keyed channel+session (the
    stored session is Close()d first, a signalling side effect with no
    bearing on the map value). -/
def delSession (t : TunState) (channel session : String) : TunState :=
  { t with sessions := removeKey t.sessions (channel ++ session) }

/-- newSession (default.go:120): build a fresh session and save it under the
    key channel+sessionId, unless an entry with that key already exists, in
    which case nothing is created and not-ok (none) is returned. -/
def newSession (t : TunState) (channel sessionId : String) :
    TunState × Option SessionV :=
  let s : SessionV :=
    { tunnel := t.id, channel := channel, session := sessionId, token := t.token }
  match findSession t.sessions (channel ++ sessionId) with
  | some _ => (t, none)
  | none => ({ t with sessions := t.sessions ++ [(channel ++ sessionId, s)] }, some s)

/-- The sessions-map invariant of the spec: for every key (the concatenation
    channel+session-id) the map holds at most one entry. -/
def sessionsUnique (t : TunState) : Prop :=
  ∀ k, countKey t.sessions k ≤ 1

/-- Errors surfaced by the pre-network stage of Dial. -/
inductive DialErr where
  | dialFailed
  | linkNotFound
deriving DecidableEq

/-- The candidate-link loop of Dial (default.go:1036-1051): keep the links
    whose id matches the explicit Link option (when one is set) and whose
    channel mapping for the dialled channel is non-zero
    (`!lastMapped.IsZero()`). -/
def dialLinks : List LinkView → String → String → List LinkView
  | [], _, _ => []
  | link :: rest, linkOpt, channel =>
    if linkOpt ≠ "" ∧ link.id ≠ linkOpt then dialLinks rest linkOpt channel
    else if channel ∈ link.channels then link :: dialLinks rest linkOpt channel
    else dialLinks rest linkOpt channel

/-- Dial (default.go:1003) up to and including the link-not-found check
    (default.go:1056-1061): create the session via newSession (failure is the
    "error dialing" return), collect the candidate links, and when an
    explicit link id was pinned and no candidate survived, delete the
    just-created session again and fail with ErrLinkNotFound.  The
    Discover/Open network stages that follow are outside this embedding; the
    .ok path returns the state at the point the check has passed.  (Dial also
    writes remote/local/outbound and mode into the created session value;
    those field writes do not touch the map keys and are omitted.) -/
def dialLinkStage (t : TunState) (channel sessionId linkOpt : String) :
    TunState × Option DialErr :=
  match newSession t channel sessionId with
  | (t0, none) => (t0, some .dialFailed)
  | (t1, some _) =>
    let links := dialLinks t1.links linkOpt channel
    if links = [] ∧ linkOpt ≠ "" then
      (delSession t1 channel sessionId, some .linkNotFound)
    else (t1, none)

/-- Listen (default.go:1134): create the listener session keyed
    (channel, "listener"); not-ok from newSession is the "already listening"
    error.  The spawned tunListener machinery is signalling only. -/
def listenStage (t : TunState) (channel : String) : TunState × Bool :=
  match newSession t channel "listener" with
  | (t0, none) => (t0, false)
  | (t1, some _) => (t1, true)

/-- Tunnel Close (default.go:978) together with close() (default.go:895):
    a no-op returning nil when not connected or when the closed channel is
    already closed; otherwise close the closed channel, clear the connected
    flag, close and drop every session and link, and return the result of
    t.listener.Close(). -/
def tunClose (t : TunState) : TunState × Option String :=
  if ¬t.connected then (t, none)
  else if t.closedFlag then (t, none)
  else ({ t with closedFlag := true, connected := false,
                 sessions := [], links := [] },
        t.listenerCloseErr)

/-- Transport-level error from socket send/recv, or io.EOF. -/
inductive TErr where
  | eof
  | sockErr (s : String)
deriving DecidableEq

/-- A transport message (transport.Message): header map and body.  Only byte
    lengths of the parts are consumed, so both are Strings and the header map
    is a key/value list. -/
structure Msg where
  header : List (String × String) := []
  body : String := ""
deriving DecidableEq

/-- packet (link.go:52): message plus receive-side error; the one-shot status
    channel is replaced by the explicit socket result handed to linkSend. -/
structure Packet where
  message : Msg := {}
  err : Option TErr := none
deriving DecidableEq

/-- The state of a link (the `link` struct, link.go:14): closed signal,
    send/recv queues, channel-membership map, RTT estimate `length` (int64
    nanoseconds), rate estimate (float64 bits per second, here exact ℚ) and
    the error counter.  socketCloses counts calls of Socket.Close(), for the
    close-at-most-once law. -/
structure LinkSt where
  id : String := ""
  connected : Bool := false
  loopback : Bool := false
  closedFlag : Bool := false
  socketCloses : Nat := 0
  sendQueue : List Packet := []
  recvQueue : List Packet := []
  channels : List String := []
  length : Int := 0
  rate : ℚ := 0
  errCount : Nat := 0
deriving DecidableEq

/-- Delay (link.go:301): len(sendQueue) + len(recvQueue). -/
def linkDelay (l : LinkSt) : Int :=
  ((l.sendQueue.length + l.recvQueue.length : Nat) : Int)

/-- Rate (link.go:306). -/
def linkRate (l : LinkSt) : ℚ := l.rate

/-- Length (link.go:314): the RTT estimate in nanoseconds. -/
def linkLength (l : LinkSt) : Int := l.length

/-- State (link.go:436): "closed" once the close channel is closed, "error"
    when errCount > 3, otherwise "connected". -/
def linkState (l : LinkSt) : String :=
  if l.closedFlag then "closed"
  else if 3 < l.errCount then "error"
  else "connected"

/-- Link Close (link.go:327): nil when the closed channel is already closed;
    otherwise close the socket and the closed channel.  Always returns nil. -/
def linkClose (l : LinkSt) : LinkSt × Option TErr :=
  if l.closedFlag then (l, none)
  else ({ l with socketCloses := l.socketCloses + 1, closedFlag := true }, none)

/-- The Go int64(float64 x) conversion: truncation toward zero. -/
def truncQ (q : ℚ) : Int :=
  if q < 0 then -(Int.floor (-q)) else Int.floor q

/-- setRate (link.go:91) on the rate field: bits divided by elapsed
    nanoseconds, scaled by 1e9 to bits per second; a zero rate is replaced by
    the sample directly, otherwise EWMA with weights 0.8/0.2. -/
def setRate (oldRate : ℚ) (bits : Int) (deltaNs : Int) : ℚ :=
  let rate : ℚ := (bits : ℚ) / (deltaNs : ℚ)
  if oldRate = 0 then rate * 1000000000
  else 0.8 * oldRate + 0.2 * (rate * 1000000000)

/-- setRTT (link.go:106): a first sample (length ≤ 0) is stored directly,
    otherwise 0.8·length + 0.2·sample computed in float64 and truncated back
    to int64 nanoseconds. -/
def setRTT (l : LinkSt) (dNs : Int) : LinkSt :=
  if l.length ≤ 0 then { l with length := dNs }
  else { l with length := truncQ (0.8 * (l.length : ℚ) + 0.2 * (dNs : ℚ)) }

/-- dataSent of link Send (link.go:390-396):
    len(m.Body) + Σ over headers of len(k) + len(v). -/
def msgDataLen (m : Msg) : Nat :=
  m.header.foldl (fun acc kv => acc + kv.1.length + kv.2.length) m.body.length

/-- Link Send (link.go:343): io.EOF when the link is closed - the source
    observes closure before queueing, while queueing and while awaiting the
    status channel, which a single closed flag captures here.  Otherwise the
    packet reaches the send pump and sockRes is the status it reports back
    (the result of Socket.Send).  A failure increments errCount and returns
    the error; success resets errCount to 0 and, when the message carried any
    data, feeds the rate estimator with bits = dataSent * 1024 over the
    elapsed time. -/
def linkSend (l : LinkSt) (m : Msg) (sockRes : Option TErr) (elapsedNs : Int) :
    LinkSt × Option TErr :=
  if l.closedFlag then (l, some .eof)
  else
    match sockRes with
    | some e => ({ l with errCount := l.errCount + 1 }, some e)
    | none =>
      let l1 := { l with errCount := 0 }
      let dataSent := msgDataLen m
      if 0 < dataSent then
        ({ l1 with rate := setRate l1.rate ((dataSent : Int) * 1024) elapsedNs },
         none)
      else (l1, none)

/-- Result of a link Recv. -/
inductive RecvRes where
  | ok (m : Msg)
  | fail (e : TErr)
  | eofRes
  | blocked
deriving DecidableEq

/-- Link Recv (link.go:411): when packets remain in recvQueue the next one is
    served whether or not the link is closed (on a closed link the inner
    select still drains the queue); a packet carrying a receive error returns
    that error.  An empty queue returns io.EOF when closed, and blocks when
    open. -/
def linkRecv (l : LinkSt) : LinkSt × RecvRes :=
  match l.recvQueue with
  | pk :: rest =>
    ({ l with recvQueue := rest },
     match pk.err with
     | some e => .fail e
     | none => .ok pk.message)
  | [] => if l.closedFlag then (l, .eofRes) else (l, .blocked)

/-- One iteration of the receive pump (link.go:151-183): a failed socket recv
    increments errCount; the packet (message, err) is then routed to the
    state channel when the header marks a link-internal probe
    (Micro-Method = link), else appended to recvQueue. -/
def recvPumpStep (l : LinkSt) (m : Msg) (res : Option TErr) : LinkSt :=
  let l1 := if res.isSome then { l with errCount := l.errCount + 1 } else l
  if m.header.lookup "Micro-Method" = some "link" then l1
  else { l1 with recvQueue := l1.recvQueue ++ [{ message := m, err := res }] }

/-- The metric of pickLink (default.go:932-937):
    float64(Delay()) * float64(Length()) * Rate(). -/
def linkMetric (l : LinkSt) : ℚ :=
  (linkDelay l : ℚ) * (linkLength l : ℚ) * linkRate l

/-- The pickLink loop (default.go:925-951) from index 1 on: skip links whose
    State() is not "connected", replace the running minimum when a strictly
    smaller metric appears. -/
def pickLinkAux : List LinkSt → ℚ → Option LinkSt → Option LinkSt
  | [], _, chosen => chosen
  | l :: rest, metric, chosen =>
    if linkState l ≠ "connected" then pickLinkAux rest metric chosen
    else if linkMetric l < metric then pickLinkAux rest (linkMetric l) (some l)
    else pickLinkAux rest metric chosen

/-- pickLink (default.go:920): scan the candidates for the connected link of
    lowest metric; `none` is the fallback path chosen == nil, on which the
    source returns a uniformly random element of the whole candidate list.
    The `i == 0` special case of the source initialises the running minimum
    from links[0] only when links[0] passes the connected check; when
    links[0] is not connected the running minimum keeps the float64 zero
    value for the rest of the scan. -/
def pickLink : List LinkSt → Option LinkSt
  | [] => none
  | l :: rest =>
    if linkState l ≠ "connected" then pickLinkAux rest 0 none
    else pickLinkAux rest (linkMetric l) (some l)

/-- The outbound message envelope (the `message` struct) as the process()
    loop of default.go reads it. -/
structure MessageE where
  typ : String := ""
  tunnel : String := ""
  channel : String := ""
  session : String := ""
  mode : Mode := .unicast
  outbound : Bool := false
  loopback : Bool := false
  link : String := ""
deriving DecidableEq

/-- The candidate-link loop of process() (default.go:311-360): filter the
    snapshot of the link map into the sendTo list.  Non-connected links are
    skipped; loopback links are skipped for outbound envelopes; non-loopback
    links are skipped for loopback envelopes; Multicast keeps only links
    whose channel map contains the channel of the envelope; other modes honour an
    explicit link id (len(msg.link) > 0) when one is named. -/
def processSendTo (msg : MessageE) : List LinkView → List LinkView
  | [] => []
  | link :: rest =>
    if ¬link.connected then processSendTo msg rest
    else if link.loopback ∧ msg.outbound then processSendTo msg rest
    else if msg.loopback ∧ ¬link.loopback then processSendTo msg rest
    else if msg.mode = .multicast then
      if msg.channel ∈ link.channels then link :: processSendTo msg rest
      else processSendTo msg rest
    else if msg.link ≠ "" ∧ link.id ≠ msg.link then processSendTo msg rest
    else link :: processSendTo msg rest

/-- The send loop of process() (default.go:365-386), recording the links it
    attempts; `ok link` says whether link.Send succeeds.  A failed send
    continues with the next candidate; after a success, modes above Unicast
    (msg.mode > Unicast) continue while Unicast breaks. -/
def processAttempts (mode : Mode) (ok : LinkView → Bool) :
    List LinkView → List LinkView
  | [] => []
  | link :: rest =>
    if ok link then
      if Mode.val .unicast < mode.val then link :: processAttempts mode ok rest
      else [link]
    else link :: processAttempts mode ok rest

/-- A connected link carrying Delay 1 (one queued packet), Length 1, Rate 1:
    metric 1.  Used for the link-selection example of the spec. -/
def cLink111 : LinkSt := { sendQueue := [{}], length := 1, rate := 1 }

/-- A connected link with Delay 2, Length 2, Rate 2: metric 8. -/
def cLink222 : LinkSt := { sendQueue := [{}, {}], length := 2, rate := 2 }

/-- A connected link with Delay 1, Length 10, Rate 1: metric 10. -/
def cLink1101 : LinkSt := { sendQueue := [{}], length := 10, rate := 1 }

/- ------------------------------------------------------------------ -/
/- Helper lemmas on the sessions map                                   -/
/- ------------------------------------------------------------------ -/

theorem countKey_append (l1 l2 : List (String × SessionV)) (k : String) :
    countKey (l1 ++ l2) k = countKey l1 k + countKey l2 k := by
  induction l1 with
  | nil => simp [countKey]
  | cons e rest ih => simp [countKey, ih, Nat.add_assoc]

theorem findSession_none_countKey (l : List (String × SessionV)) (k : String)
    (h : findSession l k = none) : countKey l k = 0 := by
  induction l with
  | nil => simp [countKey]
  | cons e rest ih =>
    by_cases he : e.1 = k
    · simp [findSession, he] at h
    · simp only [findSession, he, if_false, if_neg he] at h ⊢
      simp [countKey, he, ih h]

theorem countKey_removeKey_le (l : List (String × SessionV)) (k k2 : String) :
    countKey (removeKey l k) k2 ≤ countKey l k2 := by
  induction l with
  | nil => simp [removeKey]
  | cons e rest ih =>
    by_cases he : e.1 = k
    · simp only [removeKey, if_pos he, countKey]
      omega
    · simp only [removeKey, if_neg he, countKey]
      omega

theorem removeKey_of_findSession_none (l : List (String × SessionV)) (k : String)
    (h : findSession l k = none) : removeKey l k = l := by
  induction l with
  | nil => rfl
  | cons e rest ih =>
    by_cases he : e.1 = k
    · simp [findSession, he] at h
    · simp only [findSession, if_neg he] at h
      simp [removeKey, he, ih h]

theorem removeKey_append (l1 l2 : List (String × SessionV)) (k : String) :
    removeKey (l1 ++ l2) k = removeKey l1 k ++ removeKey l2 k := by
  induction l1 with
  | nil => simp [removeKey]
  | cons e rest ih =>
    by_cases he : e.1 = k
    · simp [removeKey, he, ih]
    · simp [removeKey, he, ih]

theorem findSession_append (l1 l2 : List (String × SessionV)) (k : String) :
    findSession (l1 ++ l2) k =
      match findSession l1 k with
      | some v => some v
      | none => findSession l2 k := by
  induction l1 with
  | nil => simp [findSession]
  | cons e rest ih =>
    by_cases he : e.1 = k
    · simp [findSession, he]
    · simp [findSession, he, ih]

/-- When the key is free, newSession appends one entry under that key and
    reports the created session. -/
theorem newSession_of_free (t : TunState) (ch sid : String)
    (h : findSession t.sessions (ch ++ sid) = none) :
    newSession t ch sid =
      ({ t with sessions := t.sessions ++
          [(ch ++ sid,
            { tunnel := t.id, channel := ch, session := sid, token := t.token })] },
       some { tunnel := t.id, channel := ch, session := sid, token := t.token }) := by
  simp [newSession, h]

/-- When the key is taken, newSession changes nothing and returns not-ok. -/
theorem newSession_of_taken (t : TunState) (ch sid : String) (s : SessionV)
    (h : findSession t.sessions (ch ++ sid) = some s) :
    newSession t ch sid = (t, none) := by
  simp [newSession, h]

theorem sessionsUnique_newSession (t : TunState) (ch sid : String)
    (h : sessionsUnique t) : sessionsUnique (newSession t ch sid).1 := by
  cases hf : findSession t.sessions (ch ++ sid) with
  | some s => rw [newSession_of_taken t ch sid s hf]; exact h
  | none =>
    rw [newSession_of_free t ch sid hf]
    intro k
    simp only [countKey_append]
    by_cases hk : ch ++ sid = k
    · have h0 : countKey t.sessions k = 0 :=
        findSession_none_countKey _ _ (hk ▸ hf)
      simp [countKey, hk, h0]
    · have hk' := h k
      simp only [countKey, hk, if_false, if_neg hk]
      omega

theorem sessionsUnique_delSession (t : TunState) (ch sid : String)
    (h : sessionsUnique t) : sessionsUnique (delSession t ch sid) := by
  intro k
  exact le_trans (countKey_removeKey_le t.sessions (ch ++ sid) k) (h k)

/- ------------------------------------------------------------------ -/
/- C2                                                                  -/
/- ------------------------------------------------------------------ -/

/-- C2: for every (channel, session-id) key the sessions map holds at most
    one entry: newSession returns not-ok and creates nothing when an entry
    with that key exists, and the operations that add sessions - Dial (via
    its pre-network stage) and Listen - go through newSession, so the
    at-most-one invariant is preserved by newSession, delSession, Dial and
    Listen. -/
theorem C2_session_map_unique
    (t : TunState) (channel sessionId linkOpt listenCh : String)
    (h : sessionsUnique t) :
    (∀ s, findSession t.sessions (channel ++ sessionId) = some s →
        newSession t channel sessionId = (t, none))
    ∧ sessionsUnique (newSession t channel sessionId).1
    ∧ sessionsUnique (delSession t channel sessionId)
    ∧ sessionsUnique (dialLinkStage t channel sessionId linkOpt).1
    ∧ sessionsUnique (listenStage t listenCh).1 := by
  refine ⟨fun s hs => newSession_of_taken t channel sessionId s hs,
          sessionsUnique_newSession t channel sessionId h,
          sessionsUnique_delSession t channel sessionId h, ?_, ?_⟩
  · have hu : sessionsUnique (newSession t channel sessionId).1 :=
      sessionsUnique_newSession t channel sessionId h
    rcases hns : newSession t channel sessionId with ⟨t1, os⟩
    have hu1 : sessionsUnique t1 := by rw [hns] at hu; exact hu
    cases os with
    | none => simpa [dialLinkStage, hns] using hu1
    | some s =>
      by_cases hc : dialLinks t1.links linkOpt channel = [] ∧ linkOpt ≠ ""
      · simpa [dialLinkStage, hns, hc] using
          sessionsUnique_delSession t1 channel sessionId hu1
      · simpa [dialLinkStage, hns, hc] using hu1
  · have hu : sessionsUnique (newSession t listenCh "listener").1 :=
      sessionsUnique_newSession t listenCh "listener" h
    rcases hns : newSession t listenCh "listener" with ⟨t1, os⟩
    have hu1 : sessionsUnique t1 := by rw [hns] at hu; exact hu
    cases os with
    | none => simpa [listenStage, hns] using hu1
    | some s => simpa [listenStage, hns] using hu1

/-- Witness for C2 at a concrete state: the empty tunnel satisfies the
    invariant and newSession preserves it. -/
theorem C2_session_map_unique_witness :
    sessionsUnique (newSession {} "chat" "s1").1 :=
  (C2_session_map_unique {} "chat" "s1" "" "news"
      (fun k => by simp [countKey])).2.1

/- ------------------------------------------------------------------ -/
/- C10                                                                 -/
/- ------------------------------------------------------------------ -/

/-- C10: the sessions map is keyed by the unseparated concatenation
    channel ++ session-id, so any two pairs with equal concatenations (such
    as ("ab","c") and ("a","bc")) collide: getSession returns the same
    result for both, newSession for the second pair fails as a duplicate
    once the first is saved, and delSession for one pair removes the other
    entry of the other pair. -/
theorem C10_concat_key_collision
    (t : TunState) (ch1 s1 ch2 s2 : String) (h : ch1 ++ s1 = ch2 ++ s2) :
    getSession t ch1 s1 = getSession t ch2 s2
    ∧ (∀ t1 s, newSession t ch1 s1 = (t1, some s) →
        (newSession t1 ch2 s2).2 = none)
    ∧ (delSession t ch1 s1).sessions = (delSession t ch2 s2).sessions := by
  refine ⟨by rw [getSession, getSession, h], ?_, ?_⟩
  · intro t1 s heq
    cases hf : findSession t.sessions (ch1 ++ s1) with
    | some v => rw [newSession_of_taken t ch1 s1 v hf] at heq; simp at heq
    | none =>
      rw [newSession_of_free t ch1 s1 hf] at heq
      have ht1 : t1.sessions = t.sessions ++
          [(ch1 ++ s1,
            { tunnel := t.id, channel := ch1, session := s1, token := t.token })] := by
        have := congrArg Prod.fst heq
        simp at this
        rw [← this]
      cases hf2 : findSession t1.sessions (ch2 ++ s2) with
      | some v => rw [newSession_of_taken t1 ch2 s2 v hf2]
      | none =>
        exfalso
        rw [ht1, findSession_append, ← h, hf] at hf2
        simp [findSession] at hf2
  · rw [delSession, delSession, h]

/-- Witness for C10 at the colliding pairs ("ab","c") and ("a","bc"). -/
theorem C10_concat_key_collision_witness :
    getSession {} "ab" "c" = getSession {} "a" "bc" :=
  (C10_concat_key_collision {} "ab" "c" "a" "bc" (by decide)).1

/- ------------------------------------------------------------------ -/
/- C9                                                                  -/
/- ------------------------------------------------------------------ -/

/-- C9: Close is idempotent on Link and on Tunnel.  A second Close returns
    nil and leaves the state unchanged; the underlying socket (and the close
    channel) is closed at most once - exactly once when starting from an
    open link; and after a Close from an un-closed tunnel state the
    connected flag is false and stays false. -/
theorem C9_close_idempotent :
    (∀ l : LinkSt,
        (linkClose l).2 = none
        ∧ linkClose (linkClose l).1 = ((linkClose l).1, none)
        ∧ (linkClose (linkClose l).1).1.socketCloses = (linkClose l).1.socketCloses
        ∧ (l.closedFlag = false →
            (linkClose l).1.socketCloses = l.socketCloses + 1))
    ∧ (∀ t : TunState,
        tunClose (tunClose t).1 = ((tunClose t).1, none)
        ∧ (t.closedFlag = false → (tunClose t).1.connected = false)
        ∧ (t.closedFlag = false →
            (tunClose (tunClose t).1).1.connected = false)) := by
  constructor
  · intro l
    by_cases hc : l.closedFlag
    · simp [linkClose, hc]
    · simp [linkClose, hc]
  · intro t
    by_cases hco : t.connected
    · by_cases hcl : t.closedFlag
      · simp [tunClose, hco, hcl]
      · simp [tunClose, hco, hcl]
    · simp [tunClose, hco]

/-- Witness for C9: closing a fresh link closes the socket exactly once. -/
theorem C9_close_idempotent_witness :
    (linkClose ({} : LinkSt)).1.socketCloses = 0 + 1 :=
  (C9_close_idempotent.1 {}).2.2.2 rfl

/- ------------------------------------------------------------------ -/
/- C5                                                                  -/
/- ------------------------------------------------------------------ -/

/-- C5: State() returns "closed" once Close has been called; it returns
    "error" exactly when the link is not closed and the cumulative error
    count exceeds 3, and "connected" otherwise.  On an open link every
    successful Send resets the error count to 0, and every failed socket
    send or receive increments it by one. -/
theorem C5_state_and_error_count
    (l : LinkSt) (m : Msg) (e : TErr) (elapsedNs : Int)
    (hopen : l.closedFlag = false) :
    (linkState l = "error" ↔ l.closedFlag = false ∧ 3 < l.errCount)
    ∧ (linkState l = "closed" ↔ l.closedFlag = true)
    ∧ (l.closedFlag = false → 3 < l.errCount → linkState l = "error")
    ∧ (l.closedFlag = false → l.errCount ≤ 3 → linkState l = "connected")
    ∧ linkState (linkClose l).1 = "closed"
    ∧ (linkSend l m none elapsedNs).1.errCount = 0
    ∧ (linkSend l m (some e) elapsedNs).1.errCount = l.errCount + 1
    ∧ (recvPumpStep l m (some e)).errCount = l.errCount + 1 := by
  refine ⟨?_, ?_, ?_, ?_, ?_, ?_, ?_, ?_⟩
  · by_cases he : 3 < l.errCount <;> simp [linkState, hopen, he]
  · simp [linkState, hopen]
    by_cases he : 3 < l.errCount <;> simp [he]
  · intro _ he
    simp [linkState, hopen, he]
  · intro _ he
    simp [linkState, hopen, Nat.not_lt.mpr he]
  · simp [linkClose, hopen, linkState]
  · by_cases hd : 0 < msgDataLen m <;> simp [linkSend, hopen, hd]
  · simp [linkSend, hopen]
  · by_cases hh : m.header.lookup "Micro-Method" = some "link" <;>
      simp [recvPumpStep, hh]

/-- Witness for C5: four accumulated errors put an open link in "error",
    and a successful Send resets the counter. -/
theorem C5_state_and_error_count_witness :
    linkState ({ errCount := 4 } : LinkSt) = "error"
    ∧ (linkSend ({ errCount := 4 } : LinkSt) {} none 1).1.errCount = 0 :=
  ⟨(C5_state_and_error_count { errCount := 4 } {} .eof 1 rfl).1.mpr
      ⟨rfl, by decide⟩,
   (C5_state_and_error_count { errCount := 4 } {} .eof 1 rfl).2.2.2.2.2.1⟩

/- ------------------------------------------------------------------ -/
/- C6                                                                  -/
/- ------------------------------------------------------------------ -/

/-- C6: setRTT stores the sample directly when the current estimate is zero
    or negative (unmeasured), and otherwise stores
    0.8·rtt + 0.2·sample truncated to an integer; in particular the first
    sample replaces the zero initial value of a fresh link directly. -/
theorem C6_setRTT_moving_average (l : LinkSt) (dNs : Int) :
    (l.length ≤ 0 → (setRTT l dNs).length = dNs)
    ∧ (0 < l.length →
        (setRTT l dNs).length =
          truncQ (0.8 * (l.length : ℚ) + 0.2 * (dNs : ℚ)))
    ∧ ((({} : LinkSt).length = 0) ∧ (setRTT {} dNs).length = dNs) := by
  refine ⟨fun h => by simp [setRTT, h], fun h => ?_, rfl, by simp [setRTT]⟩
  rw [setRTT, if_neg (by omega)]

/-- Witness for C6: a first sample lands directly; with an estimate of 10 ns
    a sample of 20 ns moves the estimate to trunc(0.8·10 + 0.2·20). -/
theorem C6_setRTT_moving_average_witness :
    (setRTT {} 5).length = 5
    ∧ (setRTT ({ length := 10 } : LinkSt) 20).length =
        truncQ (0.8 * ((({ length := 10 } : LinkSt).length : Int) : ℚ)
          + 0.2 * ((20 : Int) : ℚ)) :=
  ⟨(C6_setRTT_moving_average {} 5).1 (by decide),
   (C6_setRTT_moving_average { length := 10 } 20).2.1 (by decide)⟩

/- ------------------------------------------------------------------ -/
/- C7                                                                  -/
/- ------------------------------------------------------------------ -/

/-- C7 counterexample: a successful Send of a message with no body and no
    headers leaves the rate untouched (Send only calls setRate when
    dataSent > 0), while the claimed law "on every Send the rate is updated
    to 0.8·rate + 0.2·sample" would move a rate of 1 to 0.8 (sample 0 bits
    over 1 ns). -/
theorem C7_counterexample :
    (linkSend ({ rate := 1 } : LinkSt) {} none 1).1.rate = 1
    ∧ (0.8 : ℚ) * 1 + 0.2 * ((0 : ℚ) / 1 * 1000000000) ≠ 1 := by
  constructor
  · decide
  · norm_num

/-- C7 (amended): on every successful application-level Send whose message
    carries at least one byte of body or header data, the rate is updated
    from bits = 1024 × (len(body) + Σ len(key)+len(value)) over the elapsed
    send time converted to bits per second; the first sample replaces a zero
    rate directly and otherwise the new rate is 0.8·rate + 0.2·sample.  A failed
    send, and a successful Send of an empty message, leave the rate
    unchanged. -/
theorem C7_send_rate_update
    (l : LinkSt) (m : Msg) (e : TErr) (elapsedNs : Int)
    (hopen : l.closedFlag = false) :
    (0 < msgDataLen m →
      (linkSend l m none elapsedNs).1.rate =
        (if l.rate = 0 then
          ((((msgDataLen m : Int) * 1024 : Int)) : ℚ) / ((elapsedNs : Int) : ℚ)
            * 1000000000
         else 0.8 * l.rate +
          0.2 * (((((msgDataLen m : Int) * 1024 : Int)) : ℚ)
            / ((elapsedNs : Int) : ℚ) * 1000000000)))
    ∧ (msgDataLen m = 0 → (linkSend l m none elapsedNs).1.rate = l.rate)
    ∧ (linkSend l m (some e) elapsedNs).1.rate = l.rate := by
  refine ⟨fun h => ?_, fun h => ?_, by simp [linkSend, hopen]⟩
  · simp only [linkSend, hopen, Bool.false_eq_true, if_false, if_pos h, setRate]
  · simp [linkSend, hopen, h]

/-- Witness for C7: a successful 1-byte Send over 2 ns on a fresh link sets
    the rate to 1024/2 bits per ns, i.e. 512e9 bits per second. -/
theorem C7_send_rate_update_witness :
    (linkSend {} { body := "x" } none 2).1.rate = 512000000000 := by
  have h := (C7_send_rate_update {} { body := "x" } .eof 2 rfl).1 (by decide)
  have hd : msgDataLen { body := "x" } = 1 := rfl
  rw [h, hd]
  norm_num

/- ------------------------------------------------------------------ -/
/- C8                                                                  -/
/- ------------------------------------------------------------------ -/

/-- C8: once the link is closed, Send returns io.EOF (the source observes
    closure before queueing, while queueing and while awaiting the status
    channel; all three collapse to the closed flag) and leaves the link
    unchanged; Recv on a closed link first serves the packets remaining in
    the receive queue - yielding the receive error a packet carries when it
    carries one - and returns EOF exactly when the queue is drained. -/
theorem C8_closed_send_recv
    (l : LinkSt) (m : Msg) (res : Option TErr) (elapsedNs : Int)
    (hclosed : l.closedFlag = true) :
    linkSend l m res elapsedNs = (l, some .eof)
    ∧ ((linkRecv l).2 = .eofRes ↔ l.recvQueue = [])
    ∧ (∀ pk rest, l.recvQueue = pk :: rest →
        (linkRecv l).1.recvQueue = rest
        ∧ (linkRecv l).2 = (match pk.err with
            | some e => .fail e
            | none => .ok pk.message)) := by
  refine ⟨by simp [linkSend, hclosed], ?_, ?_⟩
  · cases hq : l.recvQueue with
    | nil => simp [linkRecv, hq, hclosed]
    | cons pk rest =>
      simp only [linkRecv, hq]
      cases pk.err <;> simp
  · intro pk rest hq
    simp [linkRecv, hq]

/-- Witness for C8: on a closed link with one buffered packet, Send returns
    EOF and the first Recv still serves the packet rather than EOF. -/
theorem C8_closed_send_recv_witness :
    linkSend { closedFlag := true, recvQueue := [{}] } {} none 1 =
      ({ closedFlag := true, recvQueue := [{}] }, some .eof)
    ∧ ((linkRecv ({ closedFlag := true, recvQueue := [{}] } : LinkSt)).2 =
        .eofRes ↔ ({ closedFlag := true, recvQueue := [{}] } : LinkSt).recvQueue = []) :=
  ⟨(C8_closed_send_recv { closedFlag := true, recvQueue := [{}] } {} none 1 rfl).1,
   (C8_closed_send_recv { closedFlag := true, recvQueue := [{}] } {} none 1 rfl).2.1⟩

/- ------------------------------------------------------------------ -/
/- C1                                                                  -/
/- ------------------------------------------------------------------ -/

/-- With every metric nonnegative (the float64 initial 0.0 is never beaten),
    the pickLink loop started with chosen == nil keeps chosen nil. -/
theorem pickLinkAux_none (ls : List LinkSt)
    (h : ∀ l ∈ ls, 0 ≤ linkMetric l) :
    pickLinkAux ls 0 none = none := by
  induction ls with
  | nil => rfl
  | cons l rest ih =>
    by_cases hc : linkState l ≠ "connected"
    · simpa [pickLinkAux, hc] using ih (fun x hx => h x (List.mem_cons_of_mem l hx))
    · have hnn : ¬linkMetric l < 0 := not_lt.mpr (h l (List.mem_cons_self _ _))
      simpa [pickLinkAux, hc, hnn] using
        ih (fun x hx => h x (List.mem_cons_of_mem l hx))

/-- The pickLink loop started with a connected chosen link and its metric as
    the running minimum returns a connected link of minimal metric among the
    chosen link and the remaining candidates. -/
theorem pickLinkAux_spec (ls : List LinkSt) (c : LinkSt)
    (hc : linkState c = "connected") :
    ∃ cFin, pickLinkAux ls (linkMetric c) (some c) = some cFin
      ∧ linkState cFin = "connected"
      ∧ (cFin = c ∨ cFin ∈ ls)
      ∧ linkMetric cFin ≤ linkMetric c
      ∧ ∀ l ∈ ls, linkState l = "connected" → linkMetric cFin ≤ linkMetric l := by
  induction ls generalizing c with
  | nil => exact ⟨c, rfl, hc, Or.inl rfl, le_refl _, by simp⟩
  | cons l rest ih =>
    by_cases hl : linkState l ≠ "connected"
    · obtain ⟨cFin, h1, h2, h3, h4, h5⟩ := ih c hc
      refine ⟨cFin, by simpa [pickLinkAux, hl] using h1, h2, ?_, h4, ?_⟩
      · rcases h3 with h3 | h3
        · exact Or.inl h3
        · exact Or.inr (List.mem_cons_of_mem l h3)
      · intro x hx hcx
        rcases List.mem_cons.mp hx with hx | hx
        · exact absurd (hx ▸ hcx) hl
        · exact h5 x hx hcx
    · push_neg at hl
      by_cases hlt : linkMetric l < linkMetric c
      · obtain ⟨cFin, h1, h2, h3, h4, h5⟩ := ih l hl
        refine ⟨cFin, by simpa [pickLinkAux, hl, hlt] using h1, h2, ?_,
          le_trans h4 (le_of_lt hlt), ?_⟩
        · rcases h3 with h3 | h3
          · exact Or.inr (h3 ▸ List.mem_cons_self _ _)
          · exact Or.inr (List.mem_cons_of_mem l h3)
        · intro x hx hcx
          rcases List.mem_cons.mp hx with hx | hx
          · exact hx ▸ h4
          · exact h5 x hx hcx
      · obtain ⟨cFin, h1, h2, h3, h4, h5⟩ := ih c hc
        refine ⟨cFin, by simpa [pickLinkAux, hl, hlt] using h1, h2, ?_, h4, ?_⟩
        · rcases h3 with h3 | h3
          · exact Or.inl h3
          · exact Or.inr (List.mem_cons_of_mem l h3)
        · intro x hx hcx
          rcases List.mem_cons.mp hx with hx | hx
          · exact hx ▸ (le_trans h4 (not_lt.mp hlt))
          · exact h5 x hx hcx

/-- C1 counterexample: with candidates [closed link, connected link of
    metric 1] pickLink takes the random fallback (chosen == nil) although a
    connected candidate exists - the `i == 0` initialisation only fires when
    the FIRST candidate passes the connected check - refuting "it falls back
    ... only when all candidates are non-connected". -/
theorem C1_counterexample :
    pickLink [{ closedFlag := true }, cLink111] = none
    ∧ ∃ l ∈ [({ closedFlag := true } : LinkSt), cLink111],
        linkState l = "connected" := by
  constructor
  · norm_num [pickLink, pickLinkAux, linkState, linkMetric, linkDelay,
      linkLength, linkRate, cLink111]
    intro h
    exact absurd h (by decide)
  · exact ⟨cLink111, List.mem_cons_of_mem _ (List.mem_cons_self _ _), rfl⟩

/-- C1 (amended): every non-fallback result of pickLink is a connected
    candidate whose metric delay × length × rate is minimal among the
    connected candidates; but with nonnegative metrics the random fallback
    is taken exactly when the FIRST candidate is not connected (not only
    when all candidates are non-connected), because the running minimum is
    initialised from links[0] only when links[0] is connected.  On the
    candidates with (delay, length, rate) = (1,1,1), (2,2,2), (1,10,1) -
    all connected, first candidate connected - it returns the first
    (metric 1 < 8 < 10). -/
theorem C1_pickLink_best (links : List LinkSt)
    (hnn : ∀ l ∈ links, 0 ≤ linkMetric l) :
    (∀ c, pickLink links = some c →
        linkState c = "connected" ∧ c ∈ links
        ∧ ∀ l ∈ links, linkState l = "connected" → linkMetric c ≤ linkMetric l)
    ∧ (∀ l0 rest, links = l0 :: rest →
        (pickLink links = none ↔ linkState l0 ≠ "connected"))
    ∧ pickLink [cLink111, cLink222, cLink1101] = some cLink111 := by
  refine ⟨?_, ?_, by
    norm_num [pickLink, pickLinkAux, linkState, linkMetric, linkDelay,
      linkLength, linkRate, cLink111, cLink222, cLink1101]⟩
  · intro c hsome
    cases links with
    | nil => simp [pickLink] at hsome
    | cons l0 rest =>
      by_cases h0 : linkState l0 ≠ "connected"
      · rw [pickLink, if_pos h0,
          pickLinkAux_none rest
            (fun x hx => hnn x (List.mem_cons_of_mem l0 hx))] at hsome
        exact absurd hsome (by simp)
      · push_neg at h0
        rw [pickLink, if_neg (by simpa using h0)] at hsome
        obtain ⟨cFin, h1, h2, h3, h4, h5⟩ := pickLinkAux_spec rest l0 h0
        rw [h1] at hsome
        obtain rfl : cFin = c := by simpa using hsome
        refine ⟨h2, ?_, ?_⟩
        · rcases h3 with h3 | h3
          · exact h3 ▸ List.mem_cons_self _ _
          · exact List.mem_cons_of_mem l0 h3
        · intro x hx hcx
          rcases List.mem_cons.mp hx with hx | hx
          · exact hx ▸ h4
          · exact h5 x hx hcx
  · rintro l0 rest rfl
    by_cases h0 : linkState l0 ≠ "connected"
    · rw [pickLink, if_pos h0,
        pickLinkAux_none rest (fun x hx => hnn x (List.mem_cons_of_mem l0 hx))]
      simpa using h0
    · push_neg at h0
      rw [pickLink, if_neg (by simpa using h0)]
      obtain ⟨cFin, h1, _, _, _, _⟩ := pickLinkAux_spec rest l0 h0
      rw [h1]
      simpa using h0

/-- Witness for C1 at the three-link example of the spec. -/
theorem C1_pickLink_best_witness :
    pickLink [cLink111, cLink222, cLink1101] = some cLink111 :=
  (C1_pickLink_best [] (by simp)).2.2

/- ------------------------------------------------------------------ -/
/- C3                                                                  -/
/- ------------------------------------------------------------------ -/

/-- Membership in the sendTo list of process(): exactly the connected candidates
    that pass the loopback rules, the Multicast channel-membership rule, and
    the explicit-link rule for non-multicast envelopes. -/
theorem processSendTo_mem (msg : MessageE) (links : List LinkView)
    (link : LinkView) :
    link ∈ processSendTo msg links ↔
      link ∈ links ∧ link.connected
      ∧ ¬(link.loopback ∧ msg.outbound)
      ∧ ¬(msg.loopback ∧ ¬link.loopback)
      ∧ (msg.mode = .multicast → msg.channel ∈ link.channels)
      ∧ (msg.mode ≠ .multicast → msg.link ≠ "" → link.id = msg.link) := by
  induction links with
  | nil => simp [processSendTo]
  | cons a rest ih =>
    simp only [processSendTo]
    by_cases h1 : (a.connected : Prop)
    case neg =>
      rw [if_pos h1, ih]
      constructor
      · rintro ⟨hm, hc⟩
        exact ⟨List.mem_cons_of_mem a hm, hc⟩
      · rintro ⟨hm, hc⟩
        rcases List.mem_cons.mp hm with rfl | hm'
        · exact absurd hc.1 h1
        · exact ⟨hm', hc⟩
    case pos =>
      rw [if_neg (not_not_intro h1)]
      by_cases h2 : (a.loopback : Prop) ∧ (msg.outbound : Prop)
      · rw [if_pos h2, ih]
        constructor
        · rintro ⟨hm, hc⟩
          exact ⟨List.mem_cons_of_mem a hm, hc⟩
        · rintro ⟨hm, hc⟩
          rcases List.mem_cons.mp hm with rfl | hm'
          · exact absurd h2 hc.2.1
          · exact ⟨hm', hc⟩
      · rw [if_neg h2]
        by_cases h3 : (msg.loopback : Prop) ∧ ¬(a.loopback : Prop)
        · rw [if_pos h3, ih]
          constructor
          · rintro ⟨hm, hc⟩
            exact ⟨List.mem_cons_of_mem a hm, hc⟩
          · rintro ⟨hm, hc⟩
            rcases List.mem_cons.mp hm with rfl | hm'
            · exact absurd h3 hc.2.2.1
            · exact ⟨hm', hc⟩
        · rw [if_neg h3]
          by_cases h4 : msg.mode = .multicast
          · rw [if_pos h4]
            by_cases h5 : msg.channel ∈ a.channels
            · rw [if_pos h5]
              simp only [List.mem_cons, ih]
              constructor
              · rintro (rfl | ⟨hm, hc⟩)
                · exact ⟨Or.inl rfl, h1, h2, h3, fun _ => h5,
                    fun hne => absurd h4 hne⟩
                · exact ⟨Or.inr hm, hc⟩
              · rintro ⟨hm | hm, hc⟩
                · exact Or.inl hm
                · exact Or.inr ⟨hm, hc⟩
            · rw [if_neg h5, ih]
              constructor
              · rintro ⟨hm, hc⟩
                exact ⟨List.mem_cons_of_mem a hm, hc⟩
              · rintro ⟨hm, hc⟩
                rcases List.mem_cons.mp hm with rfl | hm'
                · exact absurd (hc.2.2.2.1 h4) h5
                · exact ⟨hm', hc⟩
          · rw [if_neg h4]
            by_cases h6 : msg.link ≠ "" ∧ a.id ≠ msg.link
            · rw [if_pos h6, ih]
              constructor
              · rintro ⟨hm, hc⟩
                exact ⟨List.mem_cons_of_mem a hm, hc⟩
              · rintro ⟨hm, hc⟩
                rcases List.mem_cons.mp hm with rfl | hm'
                · exact absurd (hc.2.2.2.2 h4 h6.1) h6.2
                · exact ⟨hm', hc⟩
            · rw [if_neg h6]
              simp only [List.mem_cons, ih]
              constructor
              · rintro (rfl | ⟨hm, hc⟩)
                · refine ⟨Or.inl rfl, h1, h2, h3, fun hmc => absurd hmc h4, ?_⟩
                  intro hne hl
                  by_contra hid
                  exact h6 ⟨hl, hid⟩
                · exact ⟨Or.inr hm, hc⟩
              · rintro ⟨hm | hm, hc⟩
                · exact Or.inl hm
                · exact Or.inr ⟨hm, hc⟩

/-- The send loop attempts every candidate for Multicast
    (msg.mode > Unicast keeps iterating after a success). -/
theorem processAttempts_multicast (ok : LinkView → Bool) (ls : List LinkView) :
    processAttempts .multicast ok ls = ls := by
  induction ls with
  | nil => rfl
  | cons a rest ih =>
    by_cases h : ok a <;> simp [processAttempts, h, ih, Mode.val]

/-- The send loop attempts every candidate for Broadcast. -/
theorem processAttempts_broadcast (ok : LinkView → Bool) (ls : List LinkView) :
    processAttempts .broadcast ok ls = ls := by
  induction ls with
  | nil => rfl
  | cons a rest ih =>
    by_cases h : ok a <;> simp [processAttempts, h, ih, Mode.val]

/-- The Unicast send loop attempts the failing prefix and then exactly the
    first succeeding candidate, if any. -/
theorem processAttempts_unicast (ok : LinkView → Bool) (ls : List LinkView) :
    processAttempts .unicast ok ls =
      ls.takeWhile (fun l => !ok l) ++ (ls.dropWhile (fun l => !ok l)).take 1 := by
  induction ls with
  | nil => rfl
  | cons a rest ih =>
    by_cases h : ok a
    · simp [processAttempts, h, Mode.val, List.takeWhile_cons, List.dropWhile_cons]
    · simp [processAttempts, h, Mode.val, List.takeWhile_cons,
        List.dropWhile_cons, ih]

/-- C3: the candidate set of the central outbound multiplexer keeps exactly
    the connected links that survive the loopback rules, the Multicast
    channel-membership rule and - for non-multicast envelopes naming an
    explicit link id - the matching-id rule; the send loop then attempts
    candidates up to and including the first success for Unicast and
    attempts every candidate for Multicast and Broadcast. -/
theorem C3_process_routing
    (msg : MessageE) (links : List LinkView) (ok : LinkView → Bool)
    (link : LinkView) :
    (link ∈ processSendTo msg links ↔
      link ∈ links ∧ link.connected
      ∧ ¬(link.loopback ∧ msg.outbound)
      ∧ ¬(msg.loopback ∧ ¬link.loopback)
      ∧ (msg.mode = .multicast → msg.channel ∈ link.channels)
      ∧ (msg.mode ≠ .multicast → msg.link ≠ "" → link.id = msg.link))
    ∧ processAttempts .multicast ok links = links
    ∧ processAttempts .broadcast ok links = links
    ∧ processAttempts .unicast ok links =
        links.takeWhile (fun l => !ok l)
          ++ (links.dropWhile (fun l => !ok l)).take 1 :=
  ⟨processSendTo_mem msg links link, processAttempts_multicast ok links,
   processAttempts_broadcast ok links, processAttempts_unicast ok links⟩

/-- Witness for C3 on a concrete two-link broadcast. -/
theorem C3_process_routing_witness :
    processAttempts .broadcast (fun _ => false)
      [⟨"a", true, false, []⟩, ⟨"b", true, true, []⟩] =
      [⟨"a", true, false, []⟩, ⟨"b", true, true, []⟩] :=
  (C3_process_routing {} [⟨"a", true, false, []⟩, ⟨"b", true, true, []⟩]
      (fun _ => false) ⟨"a", true, false, []⟩).2.2.1

/- ------------------------------------------------------------------ -/
/- C4                                                                  -/
/- ------------------------------------------------------------------ -/

/-- With an explicit link id pinned, the candidate list of Dial is empty exactly
    when no link has both the pinned id and a channel mapping for the
    dialled channel. -/
theorem dialLinks_eq_nil (ls : List LinkView) (linkOpt channel : String)
    (hopt : linkOpt ≠ "") :
    dialLinks ls linkOpt channel = [] ↔
      ∀ l ∈ ls, ¬(l.id = linkOpt ∧ channel ∈ l.channels) := by
  induction ls with
  | nil => simp [dialLinks]
  | cons a rest ih =>
    by_cases h1 : a.id = linkOpt
    · by_cases h2 : channel ∈ a.channels
      · simp [dialLinks, hopt, h1, h2]
      · simp [dialLinks, hopt, h1, h2, ih]
    · simp [dialLinks, hopt, h1, ih]

/-- C4 counterexample: the pinned link id "L" IS present in the link map of the tunnel, but that link has no channel mapping for the dialled channel,
    and Dial still returns ErrLinkNotFound - refuting "returns the
    link-not-found error exactly when that link id is absent from the
    link map of the tunnel". -/
theorem C4_counterexample :
    (dialLinkStage
        { links := [{ id := "L", connected := true, loopback := false,
                      channels := [] }] }
        "chat" "s1" "L").2 = some DialErr.linkNotFound
    ∧ ∃ l ∈ ({ links := [{ id := "L", connected := true, loopback := false,
                           channels := [] }] } : TunState).links,
        l.id = "L" := by
  constructor
  · rfl
  · exact ⟨{ id := "L", connected := true, loopback := false, channels := [] },
      List.mem_cons_self _ _, rfl⟩

/-- C4 (amended): Dial with an explicit link id returns ErrLinkNotFound
    exactly when no link in the link map of the tunnel has both that id and a
    (non-zero) channel mapping for the dialled channel - presence of the id
    alone is not enough; and on that error the session created by Dial is
    deleted again, leaving the sessions map exactly as it was before the
    failed Dial. -/
theorem C4_dial_link_not_found
    (t : TunState) (channel sessionId linkOpt : String)
    (hfresh : findSession t.sessions (channel ++ sessionId) = none)
    (hopt : linkOpt ≠ "") :
    ((dialLinkStage t channel sessionId linkOpt).2 = some .linkNotFound ↔
      ∀ l ∈ t.links, ¬(l.id = linkOpt ∧ channel ∈ l.channels))
    ∧ ((dialLinkStage t channel sessionId linkOpt).2 = some .linkNotFound →
      (dialLinkStage t channel sessionId linkOpt).1.sessions = t.sessions) := by
  have hstage : dialLinkStage t channel sessionId linkOpt =
      (let t1 : TunState := { t with sessions := t.sessions ++
          [(channel ++ sessionId,
            { tunnel := t.id, channel := channel, session := sessionId,
              token := t.token })] }
       if dialLinks t.links linkOpt channel = [] ∧ linkOpt ≠ "" then
         (delSession t1 channel sessionId, some .linkNotFound)
       else (t1, none)) := by
    simp [dialLinkStage, newSession_of_free t channel sessionId hfresh]
  by_cases hnil : dialLinks t.links linkOpt channel = []
  · have h2 : dialLinkStage t channel sessionId linkOpt =
        (delSession { t with sessions := t.sessions ++
            [(channel ++ sessionId,
              { tunnel := t.id, channel := channel, session := sessionId,
                token := t.token })] } channel sessionId,
         some .linkNotFound) := by
      rw [hstage]
      simp [hnil, hopt]
    constructor
    · rw [h2]
      simp only [true_iff]
      exact (dialLinks_eq_nil t.links linkOpt channel hopt).mp hnil
    · intro _
      rw [h2, delSession]
      simp only [removeKey_append]
      rw [removeKey_of_findSession_none t.sessions (channel ++ sessionId) hfresh]
      simp [removeKey]
  · have h2 : dialLinkStage t channel sessionId linkOpt =
        ({ t with sessions := t.sessions ++
            [(channel ++ sessionId,
              { tunnel := t.id, channel := channel, session := sessionId,
                token := t.token })] }, none) := by
      rw [hstage]
      simp [hnil]
    constructor
    · rw [h2]
      constructor
      · intro h
        exact absurd h (by simp)
      · intro hall
        exact absurd ((dialLinks_eq_nil t.links linkOpt channel hopt).mpr hall) hnil
    · rw [h2]
      intro h
      simp at h

/-- Witness for C4 at an empty tunnel: dialling with pinned id "L" on a
    tunnel with no links fails with ErrLinkNotFound and restores the empty
    sessions map. -/
theorem C4_dial_link_not_found_witness :
    (dialLinkStage {} "c" "s" "L").2 = some DialErr.linkNotFound
    ∧ (dialLinkStage {} "c" "s" "L").1.sessions = ({} : TunState).sessions :=
  ⟨((C4_dial_link_not_found {} "c" "s" "L" rfl (by decide)).1).mpr (by simp),
   (C4_dial_link_not_found {} "c" "s" "L" rfl (by decide)).2
     (((C4_dial_link_not_found {} "c" "s" "L" rfl (by decide)).1).mpr (by simp))⟩

end Tunnel
